import Mathlib

/-!
Verification of `src/gruut/phonemize.py` (`class SqlitePhonemizer`).

The embedding models:
- the sqlite table `word_phonemes (id, word, pron_order, phonemes, role)` as a
  list of `Row` values (the `role` column is nullable, hence `Option String`);
- the in-memory lexicon `word -> role -> [phonemes]` as a function from words to
  optional role maps, a role map being an insertion-ordered association list
  (Python dicts preserve insertion order, and the code reads
  `next(iter(role_to_word.values()))`, the first inserted value);
- `SqlitePhonemizer.__call__` as `resolve`, with an explicit fuel argument for
  the recursive call on line 140 of the source, and an `Effects` record counting
  the SELECT queries, espeak analyzer invocations and recursive re-entries that
  a call performs;
- the INSERT/commit on lines 114-118, whose exception is swallowed by the bare
  `except` on line 119, via the fault flag `insert_fails`: when set, the insert
  leaves the store unchanged and resolution continues normally.
-/

namespace Gruut

/-- One row of the sqlite table `word_phonemes`.  The `role` column is nullable:
the INSERT on line 115 stores the `role` argument of `__call__`, which can be
the Python `None`. -/
structure Row where
  id : Nat
  word : String
  pron_order : Nat
  phonemes : String
  role : Option String
deriving DecidableEq

/-- In-memory role map of one word: `role -> [phonemes]`, in insertion order.
A key is `none` when it came from a database row with a NULL role. -/
abbrev RoleMap := List (Option String × List String)

/-- First binding of a key in a role map (Python `dict.get`). -/
def lookupRM : RoleMap → Option String → Option (List String)
  | [], _ => none
  | e :: rest, k => if e.1 = k then some e.2 else lookupRM rest k

/-- Python `str.split()` helper: accumulates a run of non-whitespace characters. -/
def wordsAux : List Char → List Char → List String
  | [], acc => if acc = [] then [] else [String.mk acc.reverse]
  | c :: rest, acc =>
    if c.isWhitespace then
      (if acc = [] then wordsAux rest [] else String.mk acc.reverse :: wordsAux rest [])
    else wordsAux rest (c :: acc)

/-- Python `str.split()` with no argument (line 130, `row[1].split()`): split on
runs of whitespace, dropping empty pieces. -/
def pySplit (s : String) : List String := wordsAux s.data []

/-- Python truthiness of the optional `role` argument (`if not role:`, line 98):
`None` and the empty string are falsy. -/
def roleTruthy : Option String → Bool
  | none => false
  | some s => if s = "" then false else true

/-- Row filter of the two SELECT statements (lines 99-107): match on `word`,
and additionally on `role` when the role argument is truthy. -/
def rowMatches (w : String) (role : Option String) (r : Row) : Bool :=
  if roleTruthy role then
    (if r.word = w ∧ r.role = role then true else false)
  else
    (if r.word = w then true else false)

/-- Stable insertion into a list sorted by `pron_order` (ties keep the earlier
element first, matching the stable `ORDER BY pron_order`). -/
def insertSorted (r : Row) : List Row → List Row
  | [] => [r]
  | x :: xs => if x.pron_order < r.pron_order then x :: insertSorted r xs else r :: x :: xs

/-- Stable sort by `pron_order` (the `ORDER BY pron_order` of the SELECTs). -/
def sortByPronOrder : List Row → List Row
  | [] => []
  | x :: xs => insertSorted x (sortByPronOrder xs)

/-- `cursor.fetchall()` of the SELECT on lines 99-107. -/
def queryRows (db : List Row) (w : String) (role : Option String) : List Row :=
  sortByPronOrder (db.filter (rowMatches w role))

/-- `SELECT IFNULL(MAX(id), 0) FROM word_phonemes` (line 115). -/
def maxId (db : List Row) : Nat := db.foldl (fun m r => max m r.id) 0

/-- `SELECT IFNULL(MAX(pron_order) + 1, 0) FROM word_phonemes WHERE word = ?`
(line 115): `0` when the word has no rows, otherwise its maximal order plus one. -/
def nextPronOrder (db : List Row) (w : String) : Nat :=
  match db.filter (fun r => if r.word = w then true else false) with
  | [] => 0
  | l => (l.foldl (fun m r => max m r.pron_order) 0) + 1

/-- The INSERT of line 115: a fresh id, the looked-up word, the next pron_order
for that word, the raw analyzer output string and the role argument. -/
def insertRow (db : List Row) (w ph : String) (role : Option String) : List Row :=
  db ++ [⟨maxId db + 1, w, nextPronOrder db w, ph, role⟩]

/-- Configuration part of a `SqlitePhonemizer` object: the fields that
`__call__` reads but never writes.  `analyzer` is the espeak phonemizer
(`self.espeak_phonemizer.phonemize`, a word to phoneme-string function for the
fixed voice), and `insert_fails` is the fault model for the `try`/`except` of
lines 113-121: when true, executing the INSERT/commit raises and leaves the
store unchanged; the exception is swallowed either way. -/
structure SqlitePhonemizer where
  word_transform_funcs : List (String → String)
  casing_func : Option (String → String)
  analyzer : String → String
  db_update_on : Bool
  insert_fails : Bool

/-- Mutable part of a `SqlitePhonemizer` object: the in-memory lexicon and the
contents of the sqlite table behind `db_conn`. -/
structure MState where
  lexicon : String → Option RoleMap
  db : List Row

/-- Counters for the observable external actions of one `__call__`: SELECT
queries executed, espeak analyzer invocations, and recursive re-entries
(line 140). -/
structure Effects where
  storeQueries : Nat
  analyzerCalls : Nat
  recursions : Nat
deriving DecidableEq

/-- All counters zero. -/
def effZero : Effects := ⟨0, 0, 0⟩

/-- Result of `__call__`: a phoneme list, the Python `None` (not found), or
fuel exhaustion of the embedding (never reached with enough fuel). -/
inductive ROut where
  | found : List String → ROut
  | notFound : ROut
  | fuelOut : ROut
deriving DecidableEq

/-- Lines 58-59: `if self.casing_func is not None: word = self.casing_func(word)`. -/
def applyCasing (cfg : SqlitePhonemizer) (w : String) : String :=
  match cfg.casing_func with
  | none => w
  | some f => f w

/-- Cache probe, lines 63-80: exact role, then the DEFAULT role `""`, then the
first inserted entry, and `None` when the role map is empty. -/
def probeDefaultAny (rm : RoleMap) : Option (List String) :=
  match lookupRM rm (some "") with
  | some ph => some ph
  | none =>
    match rm with
    | [] => none
    | e :: _ => some e.2

/-- Cache probe including the exact-role branch of lines 64-68. -/
def probe (rm : RoleMap) (role : Option String) : Option (List String) :=
  match role with
  | some r =>
    match lookupRM rm (some r) with
    | some ph => some ph
    | none => probeDefaultAny rm
  | none => probeDefaultAny rm

/-- Merge of one fetched row into the fresh role map (lines 130-133): first
write for a role wins. -/
def mergeRow (rm : RoleMap) (r : Row) : RoleMap :=
  if lookupRM rm r.role = none then rm ++ [(r.role, pySplit r.phonemes)] else rm

/-- Merge of a whole fetched batch, in order (lines 124-133). -/
def mergeRows (rm : RoleMap) (rows : List Row) : RoleMap := rows.foldl mergeRow rm

/-- Functional update of the lexicon (`self.lexicon[w] = rm`). -/
def lexSet (w : String) (rm : RoleMap) (lex : String → Option RoleMap) :
    String → Option RoleMap :=
  fun w' => if w' = w then some rm else lex w'

/-- The attempted INSERT/commit of lines 111-121: only performed when
`db_update_on` is set, and the store is left unchanged when the statement
raises (`insert_fails`). -/
def effInsert (cfg : SqlitePhonemizer) (db : List Row) (w ph : String)
    (role : Option String) : List Row :=
  if cfg.db_update_on then
    (if cfg.insert_fails then db else insertRow db w ph role)
  else db

/-- Candidate lookup word of one transform candidate (line 87-92): `none` is
the identity candidate. -/
def lookupOf (word : String) : Option (String → String) → String
  | none => word
  | some f => f word

/-- The `for transform_func in itertools.chain([None], transforms)` loop of
lines 87-140.  `recur` is the recursive call `self(word, role=role)` of
line 140, abstracted so that the main function can tie it with fuel. -/
def resolveLoop (cfg : SqlitePhonemizer)
    (recur : MState → Effects → ROut × MState × Effects)
    (word : String) (role : Option String) :
    List (Option (String → String)) → MState → Effects → ROut × MState × Effects
  | [], st, eff => (ROut.notFound, st, eff)
  | c :: rest, st, eff =>
    let lookup_word := lookupOf word c
    if lookup_word = "" then
      resolveLoop cfg recur word role rest st eff
    else
      let rows := queryRows st.db lookup_word role
      let eff1 : Effects := { eff with storeQueries := eff.storeQueries + 1 }
      if rows = [] then
        let ph := cfg.analyzer lookup_word
        let eff2 : Effects := { eff1 with analyzerCalls := eff1.analyzerCalls + 1 }
        let st2 : MState := { st with db := effInsert cfg st.db lookup_word ph role }
        resolveLoop cfg recur word role rest st2 eff2
      else
        let rm := mergeRows [] rows
        let st2 : MState :=
          { st with lexicon := lexSet lookup_word rm (lexSet word rm st.lexicon) }
        let eff2 : Effects := { eff1 with recursions := eff1.recursions + 1 }
        recur st2 eff2

/-- `SqlitePhonemizer.__call__(word, role, do_transforms)`, lines 54-143.
The fuel argument bounds the recursion of line 140; `ROut.fuelOut` is returned
only when it runs out. -/
def resolve (cfg : SqlitePhonemizer) :
    Nat → MState → String → Option String → Bool → Effects → ROut × MState × Effects
  | 0, st, _, _, _, eff => (ROut.fuelOut, st, eff)
  | Nat.succ fuel, st, word0, role, do_transforms, eff =>
    let word := applyCasing cfg word0
    match st.lexicon word with
    | some rm =>
      match probe rm role with
      | some ph => (ROut.found ph, st, eff)
      | none => (ROut.notFound, st, eff)
    | none =>
      let tfs := if do_transforms then cfg.word_transform_funcs else []
      resolveLoop cfg (fun st' eff' => resolve cfg fuel st' word role true eff')
        word role (none :: tfs.map Option.some) st eff

end Gruut

namespace Gruut

/-! Basic facts about the cache probe. -/

/-- The probe of an empty role map fails for every role (line 80). -/
theorem probe_nil (role : Option String) : probe [] role = none := by
  cases role <;> rfl

/-- The default/any fallback succeeds on a nonempty role map. -/
theorem probeDefaultAny_cons_isSome (e : Option String × List String) (t : RoleMap) :
    ∃ S, probeDefaultAny (e :: t) = some S := by
  unfold probeDefaultAny
  cases h : lookupRM (e :: t) (some "") with
  | none => exact ⟨e.2, by simp [h]⟩
  | some ph => exact ⟨ph, by simp [h]⟩

/-- The probe succeeds on a nonempty role map, whatever the role. -/
theorem probe_isSome_of_ne_nil (rm : RoleMap) (role : Option String) (h : rm ≠ []) :
    ∃ S, probe rm role = some S := by
  obtain ⟨e, t, rfl⟩ : ∃ e t, rm = e :: t := by
    cases rm with
    | nil => exact absurd rfl h
    | cons e t => exact ⟨e, t, rfl⟩
  cases role with
  | none => simpa [probe] using probeDefaultAny_cons_isSome e t
  | some r =>
    simp only [probe]
    cases hl : lookupRM (e :: t) (some r) with
    | some ph => exact ⟨ph, by simp [hl]⟩
    | none => simpa [hl] using probeDefaultAny_cons_isSome e t

/-- The probe of a one-entry role map whose key is exactly the requested role
returns its phonemes. -/
theorem probe_singleton (k : Option String) (S : List String) : probe [(k, S)] k = some S := by
  cases k with
  | none => rfl
  | some r => simp [probe, lookupRM, probeDefaultAny]

/-- Lines 61-80: when the (cased) word is in the lexicon, `__call__` is a pure
probe of the cached role map: the state and the effect counters are untouched. -/
theorem resolve_cache_hit (cfg : SqlitePhonemizer) (fuel : Nat) (st : MState)
    (w0 : String) (role : Option String) (dt : Bool) (eff : Effects) (rm : RoleMap)
    (h : st.lexicon (applyCasing cfg w0) = some rm) :
    resolve cfg (fuel + 1) st w0 role dt eff =
      ((match probe rm role with
        | some ph => ROut.found ph
        | none => ROut.notFound), st, eff) := by
  simp only [resolve, h]
  cases probe rm role <;> rfl

end Gruut

namespace Gruut

/-! Claims C7, C8, C9: behaviour on a cache hit. -/

/-- Claim C7: when the lexicon role map of the (cased) word is non-empty,
`__call__` returns the entry of the requested role if present, else the entry
of the DEFAULT (empty-string) role if present, else the first inserted entry;
and the choice is deterministic: a repeated call on the resulting state returns
the same entry and again leaves the state unchanged. -/
theorem c7_thm (cfg : SqlitePhonemizer) (fuel fuel2 : Nat) (st : MState) (w0 : String)
    (role : Option String) (dt dt2 : Bool) (eff eff2 : Effects) (rm : RoleMap)
    (hlex : st.lexicon (applyCasing cfg w0) = some rm) (hne : rm ≠ []) :
    (∀ r S, role = some r → lookupRM rm (some r) = some S →
        resolve cfg (fuel + 1) st w0 role dt eff = (ROut.found S, st, eff)) ∧
    (∀ S, (∀ r, role = some r → lookupRM rm (some r) = none) →
        lookupRM rm (some "") = some S →
        resolve cfg (fuel + 1) st w0 role dt eff = (ROut.found S, st, eff)) ∧
    (∀ e t, (∀ r, role = some r → lookupRM rm (some r) = none) →
        lookupRM rm (some "") = none → rm = e :: t →
        resolve cfg (fuel + 1) st w0 role dt eff = (ROut.found e.2, st, eff)) ∧
    (resolve cfg (fuel2 + 1) (resolve cfg (fuel + 1) st w0 role dt eff).2.1 w0 role dt2 eff2
      = ((resolve cfg (fuel + 1) st w0 role dt eff).1,
         (resolve cfg (fuel + 1) st w0 role dt eff).2.1, eff2)) := by
  refine ⟨?_, ?_, ?_, ?_⟩
  · intro r S hr hS
    subst hr
    rw [resolve_cache_hit cfg fuel st w0 (some r) dt eff rm hlex]
    simp [probe, hS]
  · intro S hmiss hS
    rw [resolve_cache_hit cfg fuel st w0 role dt eff rm hlex]
    cases role with
    | none => simp [probe, probeDefaultAny, hS]
    | some r => simp [probe, probeDefaultAny, hmiss r rfl, hS]
  · intro e t hmiss hS hrm
    subst hrm
    rw [resolve_cache_hit cfg fuel st w0 role dt eff _ hlex]
    cases role with
    | none => simp [probe, probeDefaultAny, hS]
    | some r => simp [probe, probeDefaultAny, hmiss r rfl, hS]
  · rw [resolve_cache_hit cfg fuel st w0 role dt eff rm hlex]
    rw [resolve_cache_hit cfg fuel2 st w0 role dt2 eff2 rm hlex]

/-- Fixture for the C7 witness: lexicon with a verb role and a DEFAULT role. -/
def cfg7 : SqlitePhonemizer := ⟨[], none, fun _ => "p", false, false⟩

/-- Fixture state for the C7 witness. -/
def st7 : MState :=
  ⟨fun w => if w = "run" then some [(some "v", ["V"]), (some "", ["D"])] else none, []⟩

/-- Witness for C7: the exact-role branch at a concrete input. -/
theorem c7_wit :
    resolve cfg7 1 st7 "run" (some "v") true effZero = (ROut.found ["V"], st7, effZero) :=
  (c7_thm cfg7 0 0 st7 "run" (some "v") true true effZero effZero
      [(some "v", ["V"]), (some "", ["D"])] rfl (by decide)).1 "v" ["V"] rfl (by decide)

/-- Claim C8: for a word present in the lexicon with a non-empty role map
(after casing), `__call__` returns a phoneme sequence and performs no store
query, no analyzer call and no store write: the state and the effect counters
of the result are exactly the initial ones. -/
theorem c8_thm (cfg : SqlitePhonemizer) (fuel : Nat) (st : MState) (w0 : String)
    (role : Option String) (dt : Bool) (eff : Effects) (rm : RoleMap)
    (hlex : st.lexicon (applyCasing cfg w0) = some rm) (hne : rm ≠ []) :
    ∃ S, resolve cfg (fuel + 1) st w0 role dt eff = (ROut.found S, st, eff) := by
  obtain ⟨S, hS⟩ := probe_isSome_of_ne_nil rm role hne
  refine ⟨S, ?_⟩
  rw [resolve_cache_hit cfg fuel st w0 role dt eff rm hlex, hS]

/-- Fixture for the C8 witness. -/
def cfg8 : SqlitePhonemizer := ⟨[], none, fun _ => "p", true, false⟩

/-- Fixture state for the C8 witness. -/
def st8 : MState :=
  ⟨fun w => if w = "run" then some [(some "", ["D"])] else none,
   [⟨1, "other", 0, "X", none⟩]⟩

/-- Witness for C8 at a concrete input, with a role absent from the role map. -/
theorem c8_wit :
    ∃ S, resolve cfg8 1 st8 "run" (some "x") true effZero = (ROut.found S, st8, effZero) :=
  c8_thm cfg8 0 st8 "run" (some "x") true effZero [(some "", ["D"])] rfl (by decide)

/-- Claim C9: a word whose lexicon entry is present with an empty role map
yields not-found for every role, with no store query, no analyzer call, and an
unchanged lexicon and store. -/
theorem c9_thm (cfg : SqlitePhonemizer) (fuel : Nat) (st : MState) (w0 : String)
    (role : Option String) (dt : Bool) (eff : Effects)
    (hlex : st.lexicon (applyCasing cfg w0) = some []) :
    resolve cfg (fuel + 1) st w0 role dt eff = (ROut.notFound, st, eff) := by
  rw [resolve_cache_hit cfg fuel st w0 role dt eff [] hlex, probe_nil]

/-- Fixture for the C9 witness. -/
def cfg9 : SqlitePhonemizer := ⟨[fun s => s], none, fun _ => "p", true, false⟩

/-- Fixture state for the C9 witness: a negatively cached word and a store row
for the very same word, which must not be consulted. -/
def st9 : MState :=
  ⟨fun w => if w = "miss" then some [] else none, [⟨1, "miss", 0, "X Y", none⟩]⟩

/-- Witness for C9 at a concrete input. -/
theorem c9_wit :
    resolve cfg9 1 st9 "miss" (some "n") true effZero = (ROut.notFound, st9, effZero) :=
  c9_thm cfg9 0 st9 "miss" (some "n") true effZero rfl

end Gruut

namespace Gruut

/-! Claim C4: the recursive call of line 140 after a successful merge. -/

/-- Merging a row never empties a role map. -/
theorem mergeRow_ne_nil (rm : RoleMap) (r : Row) : mergeRow rm r ≠ [] := by
  unfold mergeRow
  split
  · simp
  · next h =>
    cases rm with
    | nil => exact absurd rfl h
    | cons e t => simp

/-- Merging a non-empty batch into the empty role map gives a non-empty map. -/
theorem mergeRows_ne_nil (rm : RoleMap) (rows : List Row) (h : rm ≠ [] ∨ rows ≠ []) :
    mergeRows rm rows ≠ [] := by
  induction rows generalizing rm with
  | nil =>
    rcases h with h | h
    · exact h
    · exact absurd rfl h
  | cons r t ih =>
    simp only [mergeRows, List.foldl_cons]
    exact ih (mergeRow rm r) (Or.inl (mergeRow_ne_nil rm r))

/-- Claim C4 (amended): when the casing normalization fixes the already-cased
word (in particular for an idempotent or absent casing function), the recursive
call of line 140, made on the state produced by merging a non-empty row batch
(lines 124-137), terminates at the cache probe: it returns a phoneme sequence
and leaves the state and every effect counter (store queries, analyzer calls,
recursive re-entries) unchanged. -/
theorem c4_thm (cfg : SqlitePhonemizer) (st : MState) (word lw : String)
    (role : Option String) (rows : List Row) (fuel : Nat) (eff : Effects)
    (hcw : applyCasing cfg word = word) (hrows : rows ≠ []) :
    ∃ S,
      resolve cfg (fuel + 1)
        { st with lexicon := lexSet lw (mergeRows [] rows) (lexSet word (mergeRows [] rows) st.lexicon) }
        word role true eff
        = (ROut.found S,
           { st with lexicon := lexSet lw (mergeRows [] rows) (lexSet word (mergeRows [] rows) st.lexicon) },
           eff) := by
  have hne : mergeRows [] rows ≠ [] := mergeRows_ne_nil [] rows (Or.inr hrows)
  have hlex :
      ({ st with lexicon := lexSet lw (mergeRows [] rows) (lexSet word (mergeRows [] rows) st.lexicon) } :
        MState).lexicon (applyCasing cfg word) = some (mergeRows [] rows) := by
    rw [hcw]
    show lexSet lw (mergeRows [] rows) (lexSet word (mergeRows [] rows) st.lexicon) word
      = some (mergeRows [] rows)
    unfold lexSet
    by_cases h : word = lw <;> simp [h]
  obtain ⟨S, hS⟩ := probe_isSome_of_ne_nil (mergeRows [] rows) role hne
  exact ⟨S, by rw [resolve_cache_hit _ _ _ _ _ _ _ _ hlex, hS]⟩

/-- Fixture configuration for the C4 witness. -/
def cfg4w : SqlitePhonemizer := ⟨[], none, fun _ => "p", false, false⟩

/-- Fixture row for the C4 witness. -/
def row4w : Row := ⟨1, "w", 0, "A B", some "r"⟩

/-- Fixture state for the C4 witness. -/
def st4w : MState := ⟨fun _ => none, [row4w]⟩

/-- The merged state handed to the recursive call in the C4 witness run. -/
def st4wMerged : MState :=
  { st4w with lexicon := lexSet "w" (mergeRows [] [row4w]) (lexSet "w" (mergeRows [] [row4w]) st4w.lexicon) }

/-- Witness for C4 at a concrete merged state. -/
theorem c4_wit :
    ∃ S, resolve cfg4w (2 + 1) st4wMerged "w" none true effZero
      = (ROut.found S, st4wMerged, effZero) :=
  c4_thm cfg4w st4w "w" "w" none [row4w] 2 effZero rfl (by decide)

/-- Fixture for the C4 counterexample: a casing function that is not
idempotent (it appends the letter x on every application). -/
def cfgC4 : SqlitePhonemizer := ⟨[], some (fun s => s ++ "x"), fun _ => "p", false, false⟩

/-- Fixture state for the C4 counterexample: the store has a row for "ax". -/
def stC4 : MState := ⟨fun _ => none, [⟨1, "ax", 0, "P H", none⟩]⟩

/-- The state the recursive call of line 140 receives in the C4 counterexample
run: rows for "ax" were merged and aliased. -/
def stC4m : MState :=
  ⟨lexSet "ax" [(none, ["P", "H"])] (lexSet "ax" [(none, ["P", "H"])] (fun _ => none)),
   [⟨1, "ax", 0, "P H", none⟩]⟩

/-- Claim C4 counterexample: with the non-idempotent casing function of
`cfgC4`, resolving "a" merges the store rows of "ax" (one query, no analyzer
call up to that point) and then the recursive call re-enters the transform
loop instead of stopping at the cache probe: the whole call ends with two
store queries and one analyzer call, and the recursive call alone, run on the
merged state, performs one store query and one analyzer call. -/
theorem c4_cex :
    (resolve cfgC4 5 stC4 "a" none true effZero).2.2 = ⟨2, 1, 1⟩ ∧
    (resolve cfgC4 4 stC4m "ax" none true effZero).2.2.storeQueries = 1 ∧
    (resolve cfgC4 4 stC4m "ax" none true effZero).2.2.analyzerCalls = 1 :=
  ⟨by decide, by decide, by decide⟩

end Gruut

namespace Gruut

/-! Claim C2: a failing INSERT/commit is swallowed and behaves exactly like
disabled write-back. -/

/-- Casing application only depends on the casing function. -/
theorem applyCasing_congr (c1 c2 : SqlitePhonemizer) (h : c1.casing_func = c2.casing_func)
    (w : String) : applyCasing c1 w = applyCasing c2 w := by
  unfold applyCasing
  rw [h]

/-- The transform loop is pointwise equal for two configurations with the same
analyzer and the same effective insert behaviour. -/
theorem resolveLoop_congr (c1 c2 : SqlitePhonemizer)
    (r1 r2 : MState → Effects → ROut × MState × Effects) (word : String) (role : Option String)
    (han : c1.analyzer = c2.analyzer)
    (hins : ∀ db w ph ro, effInsert c1 db w ph ro = effInsert c2 db w ph ro)
    (hrec : ∀ st eff, r1 st eff = r2 st eff) :
    ∀ cands st eff,
      resolveLoop c1 r1 word role cands st eff = resolveLoop c2 r2 word role cands st eff := by
  intro cands
  induction cands with
  | nil => intro st eff; rfl
  | cons c rest ih =>
    intro st eff
    simp only [resolveLoop]
    by_cases hlw : lookupOf word c = ""
    · simp only [if_pos hlw]
      exact ih st eff
    · simp only [if_neg hlw]
      by_cases hrows : queryRows st.db (lookupOf word c) role = []
      · simp only [if_pos hrows, han, hins]
        exact ih _ _
      · simp only [if_neg hrows]
        exact hrec _ _

/-- `__call__` is pointwise equal for two configurations with the same
transforms, casing, analyzer, and effective insert behaviour. -/
theorem resolve_congr (c1 c2 : SqlitePhonemizer)
    (heq : c1.word_transform_funcs = c2.word_transform_funcs)
    (hcase : c1.casing_func = c2.casing_func)
    (han : c1.analyzer = c2.analyzer)
    (hins : ∀ db w ph ro, effInsert c1 db w ph ro = effInsert c2 db w ph ro) :
    ∀ fuel st w0 role dt eff,
      resolve c1 fuel st w0 role dt eff = resolve c2 fuel st w0 role dt eff := by
  intro fuel
  induction fuel with
  | zero => intro st w0 role dt eff; rfl
  | succ n ih =>
    intro st w0 role dt eff
    simp only [resolve, applyCasing_congr c1 c2 hcase w0, heq]
    cases h : st.lexicon (applyCasing c2 w0) with
    | some rm => simp only [h]
    | none =>
      simp only [h]
      exact resolveLoop_congr c1 c2 _ _ _ role han hins
        (fun st' eff' => ih st' _ role true eff') _ st eff

/-- Claim C2 (amended): when the write-back INSERT/commit raises, the error is
not propagated (resolution returns normally), but the freshly analyzed phoneme
string is discarded rather than returned: a call with write-back enabled and a
failing insert behaves exactly - same result, same lexicon, same store, same
effect counters - like a call with write-back disabled, in which the loop moves
on to the next transform candidate after the analyzer call. -/
theorem c2_thm (cfg : SqlitePhonemizer) (fuel : Nat) (st : MState) (w0 : String)
    (role : Option String) (dt : Bool) (eff : Effects) :
    resolve { cfg with db_update_on := true, insert_fails := true } fuel st w0 role dt eff
      = resolve { cfg with db_update_on := false, insert_fails := false } fuel st w0 role dt eff :=
  resolve_congr { cfg with db_update_on := true, insert_fails := true }
    { cfg with db_update_on := false, insert_fails := false }
    rfl rfl rfl (fun _ _ _ _ => rfl) fuel st w0 role dt eff

/-- Fixture for the C2 counterexample: empty store and lexicon, write-back
enabled, INSERT raising. -/
def cfgC2 : SqlitePhonemizer := ⟨[fun s => s], none, fun _ => "p q", true, true⟩

/-- Fixture state for the C2 counterexample. -/
def stC2 : MState := ⟨fun _ => none, []⟩

/-- Claim C2 counterexample: the store query returns zero rows, the analyzer
succeeds (it is invoked, twice even, once per candidate), the insert raises -
and `__call__` returns not-found instead of the freshly analyzed phoneme
sequence, leaving the store unchanged. -/
theorem c2_cex :
    (resolve cfgC2 3 stC2 "a" none true effZero).1 = ROut.notFound ∧
    (resolve cfgC2 3 stC2 "a" none true effZero).1 ≠ ROut.found (pySplit (cfgC2.analyzer "a")) ∧
    (resolve cfgC2 3 stC2 "a" none true effZero).2.2.analyzerCalls = 2 ∧
    (resolve cfgC2 3 stC2 "a" none true effZero).2.1.db = [] :=
  ⟨by decide, by decide, by decide, by decide⟩

/-! Claim C5: lexicon bindings are never removed, but can be replaced. -/

/-- A lexicon update never removes a binding. -/
theorem lexSet_isSome (w : String) (rm : RoleMap) (lex : String → Option RoleMap)
    (w' : String) (h : (lex w').isSome) : ((lexSet w rm lex) w').isSome := by
  unfold lexSet
  by_cases hw : w' = w <;> simp [hw, h]

/-- The transform loop never removes a lexicon binding. -/
theorem resolveLoop_lex_isSome (cfg : SqlitePhonemizer)
    (recur : MState → Effects → ROut × MState × Effects) (word : String) (role : Option String)
    (hrec : ∀ st eff w', (st.lexicon w').isSome → (((recur st eff).2.1).lexicon w').isSome) :
    ∀ cands st eff w', (st.lexicon w').isSome →
      (((resolveLoop cfg recur word role cands st eff).2.1).lexicon w').isSome := by
  intro cands
  induction cands with
  | nil => intro st eff w' h; exact h
  | cons c rest ih =>
    intro st eff w' h
    simp only [resolveLoop]
    by_cases hlw : lookupOf word c = ""
    · simp only [if_pos hlw]
      exact ih st eff w' h
    · simp only [if_neg hlw]
      by_cases hrows : queryRows st.db (lookupOf word c) role = []
      · simp only [if_pos hrows]
        exact ih _ _ w' h
      · simp only [if_neg hrows]
        exact hrec _ _ w' (lexSet_isSome _ _ _ _ (lexSet_isSome _ _ _ _ h))

/-- `__call__` never removes a lexicon binding. -/
theorem resolve_lex_isSome (cfg : SqlitePhonemizer) :
    ∀ fuel st w0 role dt eff w', (st.lexicon w').isSome →
      (((resolve cfg fuel st w0 role dt eff).2.1).lexicon w').isSome := by
  intro fuel
  induction fuel with
  | zero => intro st w0 role dt eff w' h; exact h
  | succ n ih =>
    intro st w0 role dt eff w' h
    simp only [resolve]
    cases hx : st.lexicon (applyCasing cfg w0) with
    | some rm =>
      simp only [hx]
      split <;> exact h
    | none =>
      simp only [hx]
      exact resolveLoop_lex_isSome cfg _ _ role
        (fun st' eff' w'' h'' => ih st' _ role true eff' w'' h'') _ st eff w' h

/-- Claim C5 (amended): no call ever removes a lexicon binding - every word
bound before a call is still bound after it.  (The value of a binding can
however be replaced when the word reappears as the lookup word of the aliasing
step of line 137, as the counterexample shows, so only presence is invariant.) -/
theorem c5_thm (cfg : SqlitePhonemizer) (fuel : Nat) (st : MState) (w0 : String)
    (role : Option String) (dt : Bool) (eff : Effects) (w' : String) (rm' : RoleMap)
    (h : st.lexicon w' = some rm') :
    ∃ rm2, ((resolve cfg fuel st w0 role dt eff).2.1).lexicon w' = some rm2 :=
  Option.isSome_iff_exists.mp
    (resolve_lex_isSome cfg fuel st w0 role dt eff w' (by rw [h]; rfl))

/-- Fixture for the C5 counterexample: a transform that maps every word to
"run", which is already bound in the lexicon. -/
def cfgC5 : SqlitePhonemizer := ⟨[fun _ => "run"], none, fun _ => "p", false, false⟩

/-- Fixture state for the C5 counterexample: "run" is bound in the lexicon and
also has a store row with different phonemes. -/
def stC5 : MState :=
  ⟨fun w => if w = "run" then some [(some "", ["OLD"])] else none,
   [⟨1, "run", 0, "N EW", none⟩]⟩

/-- Claim C5 counterexample: resolving "runs" replaces the pre-existing binding
of "run" (value `[(some "", [OLD])]`) by the role map merged from the store row
(value `[(none, [N, EW])]`): the binding does not map to the same role map and
phoneme sequences afterwards. -/
theorem c5_cex :
    stC5.lexicon "run" = some [(some "", ["OLD"])] ∧
    ((resolve cfgC5 5 stC5 "runs" none true effZero).2.1).lexicon "run"
      = some [(none, ["N", "EW"])] :=
  ⟨by decide, by decide⟩

/-- Fixture for the C5 witness. -/
def cfg5w : SqlitePhonemizer := ⟨[], none, fun _ => "p", true, false⟩

/-- Fixture state for the C5 witness. -/
def st5w : MState := ⟨fun w => if w = "kept" then some [(none, ["K"])] else none, []⟩

/-- Witness for C5 at a concrete input: the binding of "kept" survives an
unrelated resolution. -/
theorem c5_wit :
    ∃ rm2, ((resolve cfg5w 3 st5w "x" none true effZero).2.1).lexicon "kept" = some rm2 :=
  c5_thm cfg5w 3 st5w "x" none true effZero "kept" [(none, ["K"])] rfl

end Gruut

namespace Gruut

/-! Support lemmas for the write-back round trip (claims C1 and C6). -/

/-- Inserting into a sorted list never yields the empty list. -/
theorem insertSorted_ne_nil (r : Row) (l : List Row) : insertSorted r l ≠ [] := by
  cases l with
  | nil => simp [insertSorted]
  | cons x xs =>
    unfold insertSorted
    split <;> simp

/-- The sort of a batch is empty exactly when the batch is. -/
theorem sortByPronOrder_eq_nil_iff (l : List Row) : sortByPronOrder l = [] ↔ l = [] := by
  cases l with
  | nil => simp [sortByPronOrder]
  | cons x xs =>
    simp only [sortByPronOrder]
    constructor
    · intro h
      exact absurd h (insertSorted_ne_nil x (sortByPronOrder xs))
    · intro h
      cases h

/-- An empty query result means the filter selected nothing. -/
theorem filter_eq_nil_of_query (db : List Row) (w : String) (role : Option String)
    (h : queryRows db w role = []) : db.filter (rowMatches w role) = [] := by
  unfold queryRows at h
  exact (sortByPronOrder_eq_nil_iff _).mp h

/-- A freshly inserted row with the looked-up word and the requested role is
selected by the SELECT of the same word and role. -/
theorem rowMatches_self (w : String) (role : Option String) (i p : Nat) (ph : String) :
    rowMatches w role ⟨i, w, p, ph, role⟩ = true := by
  unfold rowMatches
  cases h : roleTruthy role <;> simp

/-- After appending one matching row to a store whose query was empty, the same
query returns exactly that row. -/
theorem queryRows_append_one (db : List Row) (w : String) (role : Option String) (r : Row)
    (h : queryRows db w role = []) (hm : rowMatches w role r = true) :
    queryRows (db ++ [r]) w role = [r] := by
  unfold queryRows
  rw [List.filter_append, filter_eq_nil_of_query db w role h]
  simp [hm, sortByPronOrder, insertSorted]

/-- Merging a single fetched row into the fresh role map of lines 125-133. -/
theorem mergeRows_single (r : Row) : mergeRows [] [r] = [(r.role, pySplit r.phonemes)] := by
  simp [mergeRows, mergeRow, lookupRM]

/-- The `if do_transforms` of lines 82-85 at a literal `true`. -/
theorem tfs_true (cfg : SqlitePhonemizer) :
    (if true then cfg.word_transform_funcs else []) = cfg.word_transform_funcs := rfl

/-- Lines 61 and 82-87: on a cache miss, `__call__` is the transform loop over
the identity candidate followed by the configured transforms. -/
theorem resolve_cache_miss (cfg : SqlitePhonemizer) (fuel : Nat) (st : MState)
    (w0 : String) (role : Option String) (dt : Bool) (eff : Effects)
    (h : st.lexicon (applyCasing cfg w0) = none) :
    resolve cfg (fuel + 1) st w0 role dt eff
      = resolveLoop cfg (fun st' eff' => resolve cfg fuel st' (applyCasing cfg w0) role true eff')
          (applyCasing cfg w0) role
          (none :: (if dt then cfg.word_transform_funcs else []).map Option.some) st eff := by
  simp only [resolve, h]

/-- One loop iteration in the store-miss case (lines 109-121 with write-back on
and a succeeding INSERT): analyze, insert, move to the next candidate. -/
theorem resolveLoop_cons_insert (cfg : SqlitePhonemizer)
    (recur : MState → Effects → ROut × MState × Effects) (word : String) (role : Option String)
    (c : Option (String → String)) (rest : List (Option (String → String)))
    (st : MState) (eff : Effects)
    (hlw : lookupOf word c ≠ "")
    (hq : queryRows st.db (lookupOf word c) role = [])
    (hup : cfg.db_update_on = true) (hif : cfg.insert_fails = false) :
    resolveLoop cfg recur word role (c :: rest) st eff
      = resolveLoop cfg recur word role rest
          { st with db := insertRow st.db (lookupOf word c) (cfg.analyzer (lookupOf word c)) role }
          ⟨eff.storeQueries + 1, eff.analyzerCalls + 1, eff.recursions⟩ := by
  simp only [resolveLoop, if_neg hlw, if_pos hq, effInsert, hup, hif]
  simp

/-- One loop iteration in the store-hit case (lines 124-140): merge the batch,
alias the lexicon, and hand over to the recursive call. -/
theorem resolveLoop_cons_merge (cfg : SqlitePhonemizer)
    (recur : MState → Effects → ROut × MState × Effects) (word : String) (role : Option String)
    (c : Option (String → String)) (rest : List (Option (String → String)))
    (st : MState) (eff : Effects) (rows : List Row)
    (hlw : lookupOf word c ≠ "")
    (hrows : queryRows st.db (lookupOf word c) role = rows) (hne : rows ≠ []) :
    resolveLoop cfg recur word role (c :: rest) st eff
      = recur
          { st with lexicon := (lexSet (lookupOf word c) (mergeRows [] rows)
              (lexSet word (mergeRows [] rows) st.lexicon)) }
          ⟨eff.storeQueries + 1, eff.analyzerCalls, eff.recursions + 1⟩ := by
  simp only [resolveLoop, if_neg hlw, hrows, if_neg hne]

end Gruut

namespace Gruut

/-- Claim C1 (amended): for a word absent from the lexicon and from the store,
with write-back enabled, a succeeding INSERT, and a transform chain whose first
candidate fixes the (cased) word - the configuration of the spec example, where
the casing transform also heads the chain - `__call__` invokes the analyzer
once, inserts exactly one new store row for the word, and returns the split
analyzer output; a subsequent call on the same word or any spelling normalizing
to it returns the same sequence from the cache, with no state change and no
further analyzer invocation.  (Without such a transform candidate the freshly
analyzed sequence is not returned at all, see the counterexample.) -/
theorem c1_thm (cfg : SqlitePhonemizer) (st : MState) (w0 w1 w : String)
    (role : Option String) (t : String → String) (rest : List (String → String))
    (fuel fuel2 : Nat) (eff eff2 : Effects) (dt2 : Bool)
    (h0 : applyCasing cfg w0 = w) (hcw : applyCasing cfg w = w) (h1 : applyCasing cfg w1 = w)
    (hw : w ≠ "") (hlex : st.lexicon w = none) (hq : queryRows st.db w role = [])
    (ht : cfg.word_transform_funcs = t :: rest) (htw : t w = w)
    (hup : cfg.db_update_on = true) (hif : cfg.insert_fails = false) :
    ∃ stOut : MState,
      resolve cfg (fuel + 2) st w0 role true eff
        = (ROut.found (pySplit (cfg.analyzer w)), stOut,
           ⟨eff.storeQueries + 2, eff.analyzerCalls + 1, eff.recursions + 1⟩) ∧
      stOut.db = st.db ++ [⟨maxId st.db + 1, w, nextPronOrder st.db w, cfg.analyzer w, role⟩] ∧
      stOut.lexicon w = some [(role, pySplit (cfg.analyzer w))] ∧
      resolve cfg (fuel2 + 1) stOut w1 role dt2 eff2
        = (ROut.found (pySplit (cfg.analyzer w)), stOut, eff2) := by
  have hlex0 : st.lexicon (applyCasing cfg w0) = none := by rw [h0]; exact hlex
  have e1 := resolve_cache_miss cfg (fuel + 1) st w0 role true eff hlex0
  rw [h0, tfs_true, ht, List.map_cons] at e1
  have e2 := resolveLoop_cons_insert cfg
      (fun st' eff' => resolve cfg (fuel + 1) st' w role true eff')
      w role none (Option.some t :: rest.map Option.some) st eff hw hq hup hif
  simp only [lookupOf] at e2
  set newRow : Row := ⟨maxId st.db + 1, w, nextPronOrder st.db w, cfg.analyzer w, role⟩ with hnr
  set st2 : MState := { st with db := insertRow st.db w (cfg.analyzer w) role } with hst2
  have hq2 : queryRows st2.db w role = [newRow] := by
    show queryRows (st.db ++ [newRow]) w role = [newRow]
    exact queryRows_append_one st.db w role newRow hq (rowMatches_self w role _ _ _)
  have e3 := resolveLoop_cons_merge cfg
      (fun st' eff' => resolve cfg (fuel + 1) st' w role true eff')
      w role (Option.some t) (rest.map Option.some) st2
      ⟨eff.storeQueries + 1, eff.analyzerCalls + 1, eff.recursions⟩ [newRow]
      (by simp only [lookupOf, htw]; exact hw)
      (by simp only [lookupOf, htw]; exact hq2)
      (by simp)
  simp only [lookupOf, htw] at e3
  set rm : RoleMap := [(role, pySplit (cfg.analyzer w))] with hrm
  have hmerge : mergeRows [] [newRow] = rm := by rw [mergeRows_single]
  rw [hmerge] at e3
  set st3 : MState := { st2 with lexicon := (lexSet w rm (lexSet w rm st2.lexicon)) } with hst3
  have hlex3 : st3.lexicon (applyCasing cfg w) = some rm := by
    rw [hcw]
    show lexSet w rm (lexSet w rm st2.lexicon) w = some rm
    simp [lexSet]
  have e4 := resolve_cache_hit cfg fuel st3 w role true
      ⟨eff.storeQueries + 1 + 1, eff.analyzerCalls + 1, eff.recursions + 1⟩ rm hlex3
  have hpr : probe rm role = some (pySplit (cfg.analyzer w)) := probe_singleton role _
  rw [hpr] at e4
  refine ⟨st3, ?_, rfl, ?_, ?_⟩
  · rw [e1, e2, e3, e4]
  · show lexSet w rm (lexSet w rm st2.lexicon) w = some rm
    simp [lexSet]
  · have hlex3b : st3.lexicon (applyCasing cfg w1) = some rm := by
      rw [h1]
      rw [hcw] at hlex3
      exact hlex3
    have e5 := resolve_cache_hit cfg fuel2 st3 w1 role dt2 eff2 rm hlex3b
    rw [hpr] at e5
    exact e5

/-- Fixture for the C1 counterexample: empty transform chain, empty store and
lexicon, write-back enabled and succeeding. -/
def cfgC1 : SqlitePhonemizer := ⟨[], none, fun _ => "p", true, false⟩

/-- Fixture state for the C1 counterexample. -/
def stC1 : MState := ⟨fun _ => none, []⟩

/-- Claim C1 counterexample: the word is absent from lexicon and store and
write-back is enabled; the analyzer is invoked and one row is inserted, but
`__call__` returns not-found instead of the analyzer phoneme sequence, because
the freshly analyzed result is never merged or returned within the same
candidate iteration (lines 109-124) and no transform candidate re-reads it. -/
theorem c1_cex :
    (resolve cfgC1 3 stC1 "run" none true effZero).1 = ROut.notFound ∧
    (resolve cfgC1 3 stC1 "run" none true effZero).1
      ≠ ROut.found (pySplit (cfgC1.analyzer "run")) ∧
    (resolve cfgC1 3 stC1 "run" none true effZero).2.2.analyzerCalls = 1 ∧
    (resolve cfgC1 3 stC1 "run" none true effZero).2.1.db.length = 1 :=
  ⟨by decide, by decide, by decide, by decide⟩

/-- Fixture for the C1 witness: identity transform heads the chain. -/
def cfg1w : SqlitePhonemizer := ⟨[fun s => s], none, fun _ => "r A n", true, false⟩

/-- Fixture state for the C1 witness. -/
def st1w : MState := ⟨fun _ => none, []⟩

/-- Witness for C1 at a concrete input. -/
theorem c1_wit :
    ∃ stOut : MState,
      resolve cfg1w 3 st1w "run" none true effZero
        = (ROut.found (pySplit (cfg1w.analyzer "run")), stOut, ⟨2, 1, 1⟩) ∧
      stOut.db = st1w.db
        ++ [⟨maxId st1w.db + 1, "run", nextPronOrder st1w.db "run", cfg1w.analyzer "run", none⟩] ∧
      stOut.lexicon "run" = some [(none, pySplit (cfg1w.analyzer "run"))] ∧
      resolve cfg1w 1 stOut "run" none true effZero
        = (ROut.found (pySplit (cfg1w.analyzer "run")), stOut, effZero) :=
  c1_thm cfg1w st1w "run" "run" "run" none (fun s => s) [] 1 0 effZero effZero true
    rfl rfl rfl (by decide) rfl rfl rfl rfl rfl rfl

/-- Claim C6: round trip of a written-back pronunciation.  After a resolution
in which the store query for the (cased) word returned zero rows and the
analyzer output was written back (write-back enabled, INSERT succeeding; no
transform chain configured, so the writing call itself returns not-found), a
later resolve of the same word and role re-reads the inserted row and returns
exactly the analyzer output split on whitespace - element by element the
sequence the analyzer produced. -/
theorem c6_thm (cfg : SqlitePhonemizer) (st : MState) (w0 w1 w : String)
    (role : Option String) (fuel fuel2 : Nat) (eff eff2 : Effects) (dt dt2 : Bool)
    (h0 : applyCasing cfg w0 = w) (hcw : applyCasing cfg w = w) (h1 : applyCasing cfg w1 = w)
    (hw : w ≠ "") (hlex : st.lexicon w = none) (hq : queryRows st.db w role = [])
    (ht : cfg.word_transform_funcs = []) (hup : cfg.db_update_on = true)
    (hif : cfg.insert_fails = false) :
    ∃ stMid : MState,
      resolve cfg (fuel + 1) st w0 role dt eff
        = (ROut.notFound, stMid, ⟨eff.storeQueries + 1, eff.analyzerCalls + 1, eff.recursions⟩) ∧
      stMid.db = st.db ++ [⟨maxId st.db + 1, w, nextPronOrder st.db w, cfg.analyzer w, role⟩] ∧
      stMid.lexicon = st.lexicon ∧
      (resolve cfg (fuel2 + 2) stMid w1 role dt2 eff2).1 = ROut.found (pySplit (cfg.analyzer w)) := by
  have hlex0 : st.lexicon (applyCasing cfg w0) = none := by rw [h0]; exact hlex
  have e1 := resolve_cache_miss cfg fuel st w0 role dt eff hlex0
  rw [h0, ht, ite_self, List.map_nil] at e1
  have e2 := resolveLoop_cons_insert cfg
      (fun st' eff' => resolve cfg fuel st' w role true eff')
      w role none [] st eff hw hq hup hif
  simp only [lookupOf] at e2
  set newRow : Row := ⟨maxId st.db + 1, w, nextPronOrder st.db w, cfg.analyzer w, role⟩ with hnr
  set st2 : MState := { st with db := insertRow st.db w (cfg.analyzer w) role } with hst2
  have hq2 : queryRows st2.db w role = [newRow] := by
    show queryRows (st.db ++ [newRow]) w role = [newRow]
    exact queryRows_append_one st.db w role newRow hq (rowMatches_self w role _ _ _)
  refine ⟨st2, ?_, rfl, rfl, ?_⟩
  · rw [e1, e2]
    rfl
  · have hlex1 : st2.lexicon (applyCasing cfg w1) = none := by rw [h1]; exact hlex
    have f1 := resolve_cache_miss cfg (fuel2 + 1) st2 w1 role dt2 eff2 hlex1
    rw [h1, ht, ite_self, List.map_nil] at f1
    set rm : RoleMap := [(role, pySplit (cfg.analyzer w))] with hrm
    have f2 := resolveLoop_cons_merge cfg
        (fun st' eff' => resolve cfg (fuel2 + 1) st' w role true eff')
        w role none [] st2 eff2 [newRow]
        (by simp only [lookupOf]; exact hw)
        (by simp only [lookupOf]; exact hq2)
        (by simp)
    simp only [lookupOf] at f2
    have hmerge : mergeRows [] [newRow] = rm := by rw [mergeRows_single]
    rw [hmerge] at f2
    set st3 : MState := { st2 with lexicon := (lexSet w rm (lexSet w rm st2.lexicon)) } with hst3
    have hlex3 : st3.lexicon (applyCasing cfg w) = some rm := by
      rw [hcw]
      show lexSet w rm (lexSet w rm st2.lexicon) w = some rm
      simp [lexSet]
    have f3 := resolve_cache_hit cfg fuel2 st3 w role true
        ⟨eff2.storeQueries + 1, eff2.analyzerCalls, eff2.recursions + 1⟩ rm hlex3
    have hpr : probe rm role = some (pySplit (cfg.analyzer w)) := probe_singleton role _
    rw [hpr] at f3
    rw [f1, f2, f3]

/-- Fixture for the C6 witness. -/
def cfg6w : SqlitePhonemizer := ⟨[], none, fun _ => "e s p", true, false⟩

/-- Fixture state for the C6 witness. -/
def st6w : MState := ⟨fun _ => none, []⟩

/-- Witness for C6 at a concrete input. -/
theorem c6_wit :
    ∃ stMid : MState,
      resolve cfg6w 2 st6w "word" (some "n") true effZero
        = (ROut.notFound, stMid, ⟨1, 1, 0⟩) ∧
      stMid.db = st6w.db
        ++ [⟨maxId st6w.db + 1, "word", nextPronOrder st6w.db "word", cfg6w.analyzer "word", some "n"⟩] ∧
      stMid.lexicon = st6w.lexicon ∧
      (resolve cfg6w 3 stMid "word" (some "n") true effZero).1
        = ROut.found (pySplit (cfg6w.analyzer "word")) :=
  c6_thm cfg6w st6w "word" "word" "word" (some "n") 1 1 effZero effZero true true
    rfl rfl rfl (by decide) rfl rfl rfl rfl rfl

end Gruut

namespace Gruut

/-- The lookup word of the first transform candidate whose lookup word is
non-empty (the first candidate not skipped by line 94). -/
def firstLookup (word : String) : List (Option (String → String)) → Option String
  | [] => none
  | c :: rest => if lookupOf word c = "" then firstLookup word rest else some (lookupOf word c)

/-- The attempted insert only ever appends rows. -/
theorem effInsert_ext (cfg : SqlitePhonemizer) (db : List Row) (w ph : String)
    (ro : Option String) : ∃ e, effInsert cfg db w ph ro = db ++ e := by
  unfold effInsert
  split
  · split
    · exact ⟨[], by simp⟩
    · exact ⟨[⟨maxId db + 1, w, nextPronOrder db w, ph, ro⟩], rfl⟩
  · exact ⟨[], by simp⟩

/-- The transform loop only ever appends store rows. -/
theorem resolveLoop_db_ext (cfg : SqlitePhonemizer)
    (recur : MState → Effects → ROut × MState × Effects) (word : String) (role : Option String)
    (hrec : ∀ st eff, ∃ e, ((recur st eff).2.1).db = st.db ++ e) :
    ∀ cands st eff, ∃ e, ((resolveLoop cfg recur word role cands st eff).2.1).db = st.db ++ e := by
  intro cands
  induction cands with
  | nil => intro st eff; exact ⟨[], by simp [resolveLoop]⟩
  | cons c rest ih =>
    intro st eff
    simp only [resolveLoop]
    by_cases hlw : lookupOf word c = ""
    · simp only [if_pos hlw]
      exact ih st eff
    · simp only [if_neg hlw]
      by_cases hrows : queryRows st.db (lookupOf word c) role = []
      · simp only [if_pos hrows]
        obtain ⟨e0, he0⟩ := effInsert_ext cfg st.db (lookupOf word c)
          (cfg.analyzer (lookupOf word c)) role
        obtain ⟨e1, he1⟩ := ih
          { st with db := effInsert cfg st.db (lookupOf word c) (cfg.analyzer (lookupOf word c)) role }
          ⟨eff.storeQueries + 1, eff.analyzerCalls + 1, eff.recursions⟩
        refine ⟨e0 ++ e1, ?_⟩
        rw [he1]
        show effInsert cfg st.db (lookupOf word c) (cfg.analyzer (lookupOf word c)) role ++ e1
          = st.db ++ (e0 ++ e1)
        rw [he0, List.append_assoc]
      · simp only [if_neg hrows]
        exact hrec _ _

/-- `__call__` only ever appends store rows: it never deletes or updates. -/
theorem resolve_db_ext (cfg : SqlitePhonemizer) :
    ∀ fuel st w0 role dt eff,
      ∃ e, ((resolve cfg fuel st w0 role dt eff).2.1).db = st.db ++ e := by
  intro fuel
  induction fuel with
  | zero => intro st w0 role dt eff; exact ⟨[], by simp [resolve]⟩
  | succ n ih =>
    intro st w0 role dt eff
    cases hx : st.lexicon (applyCasing cfg w0) with
    | some rm =>
      rw [resolve_cache_hit cfg n st w0 role dt eff rm hx]
      exact ⟨[], by simp⟩
    | none =>
      rw [resolve_cache_miss cfg n st w0 role dt eff hx]
      exact resolveLoop_db_ext cfg _ _ role
        (fun st' eff' => ih st' (applyCasing cfg w0) role true eff') _ st eff

/-- A store containing a matching row answers the query with at least one row. -/
theorem queryRows_ne_nil_of_mem (db : List Row) (w : String) (role : Option String) (r : Row)
    (hm : r ∈ db) (hmatch : rowMatches w role r = true) : queryRows db w role ≠ [] := by
  unfold queryRows
  rw [Ne, sortByPronOrder_eq_nil_iff]
  intro h
  have hmem : r ∈ db.filter (rowMatches w role) := List.mem_filter.mpr ⟨hm, hmatch⟩
  rw [h] at hmem
  exact absurd hmem (List.not_mem_nil r)

/-- Post-condition of the transform loop with write-back enabled and a
succeeding INSERT: afterwards, either the lexicon has an entry for the word, or
the store answers the query of the first non-skipped candidate lookup word with
at least one row (the row inserted by that candidate, or rows that were already
there). -/
theorem resolveLoop_post (cfg : SqlitePhonemizer)
    (recur : MState → Effects → ROut × MState × Effects) (word : String) (role : Option String)
    (hup : cfg.db_update_on = true) (hif : cfg.insert_fails = false)
    (hrecLex : ∀ st eff w', (st.lexicon w').isSome → (((recur st eff).2.1).lexicon w').isSome)
    (hrecDb : ∀ st eff, ∃ e, ((recur st eff).2.1).db = st.db ++ e) :
    ∀ cands st eff,
      ((((resolveLoop cfg recur word role cands st eff).2.1).lexicon word).isSome = true) ∨
      (∀ lw, firstLookup word cands = some lw →
        queryRows ((resolveLoop cfg recur word role cands st eff).2.1).db lw role ≠ []) := by
  intro cands
  induction cands with
  | nil =>
    intro st eff
    right
    intro lw h
    simp [firstLookup] at h
  | cons c rest ih =>
    intro st eff
    by_cases hlw : lookupOf word c = ""
    · have hstep : resolveLoop cfg recur word role (c :: rest) st eff
          = resolveLoop cfg recur word role rest st eff := by
        simp only [resolveLoop, if_pos hlw]
      rw [hstep]
      rcases ih st eff with h | h
      · left; exact h
      · right
        intro lw hfl
        apply h
        simp only [firstLookup, if_pos hlw] at hfl
        exact hfl
    · by_cases hrows : queryRows st.db (lookupOf word c) role = []
      · have hstep := resolveLoop_cons_insert cfg recur word role c rest st eff hlw hrows hup hif
        rw [hstep]
        right
        intro lw hfl
        have hlww : lookupOf word c = lw := by
          simp only [firstLookup, if_neg hlw, Option.some_inj] at hfl
          exact hfl
        subst hlww
        obtain ⟨e1, he1⟩ := resolveLoop_db_ext cfg recur word role hrecDb rest
          { st with db := insertRow st.db (lookupOf word c) (cfg.analyzer (lookupOf word c)) role }
          ⟨eff.storeQueries + 1, eff.analyzerCalls + 1, eff.recursions⟩
        apply queryRows_ne_nil_of_mem _ _ _
          (⟨maxId st.db + 1, lookupOf word c, nextPronOrder st.db (lookupOf word c),
            cfg.analyzer (lookupOf word c), role⟩ : Row)
        · rw [he1]
          show (⟨maxId st.db + 1, lookupOf word c, nextPronOrder st.db (lookupOf word c),
              cfg.analyzer (lookupOf word c), role⟩ : Row)
            ∈ (st.db ++ [⟨maxId st.db + 1, lookupOf word c, nextPronOrder st.db (lookupOf word c),
              cfg.analyzer (lookupOf word c), role⟩]) ++ e1
          simp
        · exact rowMatches_self _ _ _ _ _
      · have hstep := resolveLoop_cons_merge cfg recur word role c rest st eff
          (queryRows st.db (lookupOf word c) role) hlw rfl hrows
        rw [hstep]
        left
        apply hrecLex
        exact lexSet_isSome _ _ _ _ (by simp [lexSet])

/-- When the query of the first non-skipped candidate already has rows and the
recursive call is analyzer-free on cached words, the transform loop performs no
analyzer call. -/
theorem resolveLoop_no_analyzer (cfg : SqlitePhonemizer)
    (recur : MState → Effects → ROut × MState × Effects) (word : String) (role : Option String)
    (hrecAn : ∀ st eff, (st.lexicon word).isSome →
      ((recur st eff).2.2).analyzerCalls = eff.analyzerCalls) :
    ∀ cands st eff,
      (∀ lw, firstLookup word cands = some lw → queryRows st.db lw role ≠ []) →
      ((resolveLoop cfg recur word role cands st eff).2.2).analyzerCalls = eff.analyzerCalls := by
  intro cands
  induction cands with
  | nil => intro st eff _; rfl
  | cons c rest ih =>
    intro st eff hq
    by_cases hlw : lookupOf word c = ""
    · have hstep : resolveLoop cfg recur word role (c :: rest) st eff
          = resolveLoop cfg recur word role rest st eff := by
        simp only [resolveLoop, if_pos hlw]
      rw [hstep]
      apply ih st eff
      intro lw hfl
      apply hq
      simp only [firstLookup, if_pos hlw]
      exact hfl
    · have hne := hq (lookupOf word c) (by simp only [firstLookup, if_neg hlw])
      have hstep := resolveLoop_cons_merge cfg recur word role c rest st eff
        (queryRows st.db (lookupOf word c) role) hlw rfl hne
      rw [hstep]
      rw [hrecAn _ _ (lexSet_isSome _ _ _ _ (by simp [lexSet]))]

/-- Claim C3 (amended): with write-back enabled and succeeding and an
idempotent (or absent) casing normalization, the second of two successive calls
with the same arguments performs no analyzer invocation at all: every analyzer
call happens in the first of the two calls (which may itself analyze once per
transform candidate, so "at most once in total" does not hold - see the
counterexample - and fails outright with write-back disabled). -/
theorem c3_thm (cfg : SqlitePhonemizer) (st : MState) (w0 : String) (role : Option String)
    (dt : Bool) (fuel1 fuel2 : Nat) (eff0 eff1 : Effects)
    (hup : cfg.db_update_on = true) (hif : cfg.insert_fails = false)
    (hidem : ∀ x, applyCasing cfg (applyCasing cfg x) = applyCasing cfg x) :
    ((resolve cfg fuel2 ((resolve cfg (fuel1 + 1) st w0 role dt eff0).2.1)
        w0 role dt eff1).2.2).analyzerCalls = eff1.analyzerCalls := by
  cases hx : st.lexicon (applyCasing cfg w0) with
  | some rm =>
    rw [resolve_cache_hit cfg fuel1 st w0 role dt eff0 rm hx]
    cases fuel2 with
    | zero => rfl
    | succ m =>
      rw [show ((match probe rm role with
          | some ph => ROut.found ph
          | none => ROut.notFound), st, eff0).2.1 = st from rfl]
      rw [resolve_cache_hit cfg m st w0 role dt eff1 rm hx]
  | none =>
    rw [resolve_cache_miss cfg fuel1 st w0 role dt eff0 hx]
    have hpost := resolveLoop_post cfg
      (fun st' eff' => resolve cfg fuel1 st' (applyCasing cfg w0) role true eff')
      (applyCasing cfg w0) role hup hif
      (fun st' eff' w' h => resolve_lex_isSome cfg fuel1 st' (applyCasing cfg w0) role true eff' w' h)
      (fun st' eff' => resolve_db_ext cfg fuel1 st' (applyCasing cfg w0) role true eff')
      (none :: (if dt then cfg.word_transform_funcs else []).map Option.some) st eff0
    cases fuel2 with
    | zero => rfl
    | succ m =>
      set stL := ((resolveLoop cfg
        (fun st' eff' => resolve cfg fuel1 st' (applyCasing cfg w0) role true eff')
        (applyCasing cfg w0) role
        (none :: (if dt then cfg.word_transform_funcs else []).map Option.some) st eff0).2.1)
        with hstL
      cases hy : stL.lexicon (applyCasing cfg w0) with
      | some rm2 =>
        rw [resolve_cache_hit cfg m stL w0 role dt eff1 rm2 hy]
      | none =>
        rw [resolve_cache_miss cfg m stL w0 role dt eff1 hy]
        rcases hpost with hsome | hquery
        · rw [hy] at hsome
          simp at hsome
        · apply resolveLoop_no_analyzer cfg _ (applyCasing cfg w0) role
          · intro st' eff' hs
            cases m with
            | zero => rfl
            | succ m2 =>
              obtain ⟨rm3, hrm3⟩ := Option.isSome_iff_exists.mp hs
              have hz : st'.lexicon (applyCasing cfg (applyCasing cfg w0)) = some rm3 := by
                rw [hidem w0]
                exact hrm3
              rw [resolve_cache_hit cfg m2 st' (applyCasing cfg w0) role true eff' rm3 hz]
          · intro lw hfl
            apply hquery lw hfl

/-- Fixture for the C3 counterexample: write-back disabled. -/
def cfgC3 : SqlitePhonemizer := ⟨[], none, fun _ => "p", false, false⟩

/-- Fixture state for the C3 counterexample. -/
def stC3 : MState := ⟨fun _ => none, []⟩

/-- Claim C3 counterexample: with write-back disabled (a setting the claim
includes), two successive identical calls on the same instance invoke the
analyzer twice in total - nothing was cached or persisted by the first call. -/
theorem c3_cex :
    ((resolve cfgC3 3 (resolve cfgC3 3 stC3 "a" none true effZero).2.1 "a" none true
        (resolve cfgC3 3 stC3 "a" none true effZero).2.2).2.2).analyzerCalls = 2 := by
  decide

/-- Fixture for the C3 witness. -/
def cfg3w : SqlitePhonemizer := ⟨[], none, fun _ => "p", true, false⟩

/-- Fixture state for the C3 witness. -/
def st3w : MState := ⟨fun _ => none, []⟩

/-- Witness for C3 at a concrete input: the second call analyzes nothing. -/
theorem c3_wit :
    ((resolve cfg3w 3 ((resolve cfg3w (2 + 1) st3w "run" none true effZero).2.1)
        "run" none true effZero).2.2).analyzerCalls = 0 :=
  c3_thm cfg3w st3w "run" none true 2 3 effZero effZero rfl rfl (fun _ => rfl)

end Gruut

namespace Gruut

/-- Relation between the role stored by the A-run (role argument `some ""`)
and the B-run (role argument `none`): equal, or the pair written by the two
inserts of the same step. -/
def roleRel (a b : Option String) : Prop := a = b ∨ (a = some "" ∧ b = none)

/-- All row fields except the nullable role column. -/
def rowCore (r : Row) : Nat × String × Nat × String := (r.id, r.word, r.pron_order, r.phonemes)

/-- Two rows produced at the same position of the two runs: same id, word,
pron_order and phonemes; roles equal or the diverging insert pair. -/
def rowRel (a b : Row) : Prop := rowCore a = rowCore b ∧ roleRel a.role b.role

/-- Number of store rows whose word column is `w`. -/
def countWord (db : List Row) (w : String) : Nat := (db.filter (rowMatches w none)).length

/-- The two stores after the same history: pointwise related rows, and any row
pair with diverging roles was inserted for a word that has exactly one row. -/
def dbRel (dA dB : List Row) : Prop :=
  ∃ l : List (Row × Row),
    dA = l.map Prod.fst ∧ dB = l.map Prod.snd ∧
    (∀ p ∈ l, rowRel p.1 p.2) ∧
    (∀ p ∈ l, p.1.role ≠ p.2.role → countWord (l.map Prod.fst) p.1.word ≤ 1)

/-- The two role maps a word can be bound to in the two runs: equal, or the
singleton maps merged from a diverging insert pair. -/
def rmRel (a b : RoleMap) : Prop := a = b ∨ ∃ S, a = [(some "", S)] ∧ b = [(none, S)]

/-- Pointwise relation of the two lexicons. -/
def lexRel (lA lB : String → Option RoleMap) : Prop :=
  ∀ w, (lA w = none ∧ lB w = none) ∨ ∃ a b, lA w = some a ∧ lB w = some b ∧ rmRel a b

/-- Relation of the two mutable states. -/
def stRel (sA sB : MState) : Prop := lexRel sA.lexicon sB.lexicon ∧ dbRel sA.db sB.db

/-- Relation of two call results: equal outcome, related states, equal effect
counters. -/
def outRel (x y : ROut × MState × Effects) : Prop :=
  x.1 = y.1 ∧ stRel x.2.1 y.2.1 ∧ x.2.2 = y.2.2

/-- A row is related to itself. -/
theorem rowRel_refl (r : Row) : rowRel r r := ⟨rfl, Or.inl rfl⟩

/-- Unpacking of the core equality of related rows. -/
theorem rowRel_fields (a b : Row) (h : rowRel a b) :
    a.id = b.id ∧ a.word = b.word ∧ a.pron_order = b.pron_order ∧ a.phonemes = b.phonemes := by
  have h1 := h.1
  simp only [rowCore, Prod.ext_iff] at h1
  exact ⟨h1.1, h1.2.1, h1.2.2.1, h1.2.2.2⟩

/-- Related rows with equal roles are equal. -/
theorem rowRel_eq (a b : Row) (h : rowRel a b) (hrole : a.role = b.role) : a = b := by
  obtain ⟨h1, h2, h3, h4⟩ := rowRel_fields a b h
  cases a
  cases b
  simp_all

/-- First projection of the diagonal pair list. -/
theorem map_pair_fst (db : List Row) : (db.map (fun r => (r, r))).map Prod.fst = db := by
  induction db with
  | nil => rfl
  | cons a t ih => simp [ih]

/-- Second projection of the diagonal pair list. -/
theorem map_pair_snd (db : List Row) : (db.map (fun r => (r, r))).map Prod.snd = db := by
  induction db with
  | nil => rfl
  | cons a t ih => simp [ih]

/-- A store is related to itself. -/
theorem dbRel_refl (db : List Row) : dbRel db db := by
  refine ⟨db.map (fun r => (r, r)), (map_pair_fst db).symm, (map_pair_snd db).symm, ?_, ?_⟩
  · intro p hp
    simp only [List.mem_map] at hp
    obtain ⟨r, _, rfl⟩ := hp
    exact rowRel_refl r
  · intro p hp hne
    simp only [List.mem_map] at hp
    obtain ⟨r, _, rfl⟩ := hp
    exact absurd rfl hne

/-- A role map is related to itself. -/
theorem rmRel_refl (rm : RoleMap) : rmRel rm rm := Or.inl rfl

/-- A lexicon is related to itself. -/
theorem lexRel_refl (lex : String → Option RoleMap) : lexRel lex lex := by
  intro w
  cases h : lex w with
  | none => exact Or.inl ⟨rfl, rfl⟩
  | some a => exact Or.inr ⟨a, a, rfl, rfl, rmRel_refl a⟩

/-- A state is related to itself. -/
theorem stRel_refl (st : MState) : stRel st st := ⟨lexRel_refl _, dbRel_refl _⟩

/-- The cache probe with the empty-string role coincides with the probe with
no role: the exact-role branch for `""` performs the very lookup the DEFAULT
branch performs next. -/
theorem probe_empty_eq_none (rm : RoleMap) : probe rm (some "") = probe rm none := by
  show (match lookupRM rm (some "") with
        | some ph => some ph
        | none => probeDefaultAny rm) = probeDefaultAny rm
  cases h : lookupRM rm (some "") with
  | some ph => simp [probeDefaultAny, h]
  | none => simp [h]

/-- Related role maps give the same probe result for the two role arguments. -/
theorem probe_rel (a b : RoleMap) (h : rmRel a b) : probe a (some "") = probe b none := by
  rcases h with rfl | ⟨S, rfl, rfl⟩
  · exact probe_empty_eq_none a
  · simp [probe, lookupRM, probeDefaultAny]

/-- The unfiltered SELECT predicate tests only the word column. -/
theorem rowMatches_none (w : String) (r : Row) :
    rowMatches w none r = if r.word = w then true else false := rfl

/-- A falsy role argument (Python `None` or the empty string) selects the
unfiltered, word-only query (`if not role:`, line 98). -/
theorem rowMatches_falsy (w : String) (role : Option String) (h : roleTruthy role = false) :
    rowMatches w role = rowMatches w none := by
  funext r
  unfold rowMatches
  rw [h]
  rfl

/-- Filtering the two projections of a pair list by a predicate that agrees on
each pair filters the pair list itself. -/
theorem filter_map_pair (l : List (Row × Row)) (p : Row → Bool)
    (hpp : ∀ q ∈ l, p q.1 = p q.2) :
    (l.map Prod.fst).filter p = ((l.filter (fun q => p q.1)).map Prod.fst) ∧
    (l.map Prod.snd).filter p = ((l.filter (fun q => p q.1)).map Prod.snd) := by
  induction l with
  | nil => simp
  | cons q t ih =>
    obtain ⟨ih1, ih2⟩ := ih (fun q hq => hpp q (List.mem_cons_of_mem _ hq))
    have hq2 := hpp q (List.mem_cons_self q t)
    constructor
    · simp only [List.map_cons, List.filter_cons]
      cases hq : p q.1 with
      | true => simp [hq, ih1]
      | false => simp [hq, ih1]
    · simp only [List.map_cons, List.filter_cons]
      cases hq : p q.1 with
      | true =>
        rw [hq] at hq2
        simp [← hq2, ih2]
      | false =>
        rw [hq] at hq2
        simp [← hq2, ih2]

/-- Sorting a one-row batch. -/
theorem sortByPronOrder_single (r : Row) : sortByPronOrder [r] = [r] := rfl

/-- The key dichotomy: on related stores, the two queries of a word either
return equal batches, or both return one row of a diverging insert pair - in
both cases the role maps merged from the two batches are related, and emptiness
coincides. -/
theorem query_rel (dA dB : List Row) (h : dbRel dA dB) (w : String) :
    (queryRows dA w (some "") = [] ↔ queryRows dB w none = []) ∧
    rmRel (mergeRows [] (queryRows dA w (some ""))) (mergeRows [] (queryRows dB w none)) := by
  obtain ⟨l, rfl, rfl, hrel, huniq⟩ := h
  have hfalsy : rowMatches w (some "") = rowMatches w none := rowMatches_falsy w _ rfl
  have hpp : ∀ q ∈ l, rowMatches w none q.1 = rowMatches w none q.2 := by
    intro q hq
    rw [rowMatches_none, rowMatches_none, (rowRel_fields _ _ (hrel q hq)).2.1]
  obtain ⟨e1, e2⟩ := filter_map_pair l (rowMatches w none) hpp
  have hqA : queryRows (l.map Prod.fst) w (some "")
      = sortByPronOrder ((l.filter (fun q => rowMatches w none q.1)).map Prod.fst) := by
    unfold queryRows
    rw [hfalsy, e1]
  have hqB : queryRows (l.map Prod.snd) w none
      = sortByPronOrder ((l.filter (fun q => rowMatches w none q.1)).map Prod.snd) := by
    unfold queryRows
    rw [e2]
  by_cases hdiv : ∃ q ∈ l.filter (fun q => rowMatches w none q.1), q.1.role ≠ q.2.role
  · -- a divergent pair in the batch: the batch is a singleton
    obtain ⟨q, hqlf, hqrole⟩ := hdiv
    have hql : q ∈ l := List.mem_of_mem_filter hqlf
    have hqp : rowMatches w none q.1 = true := by
      have := List.mem_filter.mp hqlf
      exact this.2
    have hqw : q.1.word = w := by
      rw [rowMatches_none] at hqp
      by_cases hw : q.1.word = w
      · exact hw
      · simp [hw] at hqp
    have hcount : countWord (l.map Prod.fst) w ≤ 1 := by
      have := huniq q hql hqrole
      rwa [hqw] at this
    have hlen : ((l.map Prod.fst).filter (rowMatches w none)).length ≤ 1 := hcount
    rw [e1] at hlen
    have hmem : q ∈ l.filter (fun q => rowMatches w none q.1) := hqlf
    have hlen1 : (l.filter (fun q => rowMatches w none q.1)).length = 1 := by
      have hge : 1 ≤ (l.filter (fun q => rowMatches w none q.1)).length := by
        cases hlf : l.filter (fun q => rowMatches w none q.1) with
        | nil => rw [hlf] at hmem; cases hmem
        | cons x t => simp
      have hle : (l.filter (fun q => rowMatches w none q.1)).length ≤ 1 := by
        simpa using hlen
      omega
    obtain ⟨x, hx⟩ := List.length_eq_one.mp hlen1
    have hxq : x = q := by
      rw [hx] at hmem
      exact (List.mem_singleton.mp hmem).symm
    rw [hxq] at hx
    rw [hx] at hqA hqB
    simp only [List.map_cons, List.map_nil, sortByPronOrder_single] at hqA hqB
    have hroles : q.1.role = some "" ∧ q.2.role = none := by
      rcases (hrel q hql).2 with heq | hro
      · exact absurd heq hqrole
      · exact hro
    constructor
    · rw [hqA, hqB]
      constructor
      · intro hh; cases hh
      · intro hh; cases hh
    · rw [hqA, hqB, mergeRows_single, mergeRows_single]
      right
      refine ⟨pySplit q.1.phonemes, ?_, ?_⟩
      · rw [hroles.1]
      · rw [hroles.2, (rowRel_fields _ _ (hrel q hql)).2.2.2]
  · -- no divergent pair: the two batches are equal
    push_neg at hdiv
    have hmaps : (l.filter (fun q => rowMatches w none q.1)).map Prod.fst
        = (l.filter (fun q => rowMatches w none q.1)).map Prod.snd := by
      apply List.map_congr_left
      intro q hq
      exact rowRel_eq q.1 q.2 (hrel q (List.mem_of_mem_filter hq))
        (hdiv q hq)
    rw [hmaps] at hqA
    rw [hqA, hqB]
    exact ⟨Iff.rfl, rmRel_refl _⟩

/-- A fold over a field that agrees on each pair is equal on both projections. -/
theorem foldl_pair_eq (f : Row → Nat) (g : Nat → Nat → Nat) :
    ∀ (l : List (Row × Row)), (∀ q ∈ l, f q.1 = f q.2) →
      ∀ init, List.foldl (fun m r => g m (f r)) init (l.map Prod.fst)
        = List.foldl (fun m r => g m (f r)) init (l.map Prod.snd) := by
  intro l
  induction l with
  | nil => intro _ init; rfl
  | cons q t ih =>
    intro hf init
    simp only [List.map_cons, List.foldl_cons]
    rw [hf q (List.mem_cons_self q t)]
    exact ih (fun q hq => hf q (List.mem_cons_of_mem _ hq)) _

/-- The fresh id computed by the INSERT is equal on related stores. -/
theorem maxId_pair (l : List (Row × Row)) (hrel : ∀ q ∈ l, rowRel q.1 q.2) :
    maxId (l.map Prod.fst) = maxId (l.map Prod.snd) := by
  unfold maxId
  exact foldl_pair_eq (fun r => r.id) max l
    (fun q hq => (rowRel_fields _ _ (hrel q hq)).1) 0

/-- The next pron_order computed by the INSERT is equal on related stores. -/
theorem nextPronOrder_pair (l : List (Row × Row)) (hrel : ∀ q ∈ l, rowRel q.1 q.2)
    (w : String) : nextPronOrder (l.map Prod.fst) w = nextPronOrder (l.map Prod.snd) w := by
  unfold nextPronOrder
  have hpp : ∀ q ∈ l, (if q.1.word = w then true else false)
      = (if q.2.word = w then true else false) := by
    intro q hq
    rw [(rowRel_fields _ _ (hrel q hq)).2.1]
  obtain ⟨e1, e2⟩ := filter_map_pair l (fun r => if r.word = w then true else false) hpp
  rw [e1, e2]
  have hrelf : ∀ q ∈ l.filter (fun q => if q.1.word = w then true else false), rowRel q.1 q.2 :=
    fun q hq => hrel q (List.mem_of_mem_filter hq)
  cases hlf : l.filter (fun q => if q.1.word = w then true else false) with
  | nil => rfl
  | cons x t =>
    simp only [List.map_cons]
    have hx : ∀ q ∈ x :: t, rowRel q.1 q.2 := by
      rw [← hlf]
      exact hrelf
    have hfold := foldl_pair_eq (fun r => r.pron_order) max (x :: t)
      (fun q hq => (rowRel_fields _ _ (hx q hq)).2.2.1) 0
    simp only [List.map_cons] at hfold
    rw [hfold]

/-- Appending one row changes the per-word row count by its match. -/
theorem countWord_append_one (db : List Row) (r : Row) (x : String) :
    countWord (db ++ [r]) x = countWord db x + (if rowMatches x none r = true then 1 else 0) := by
  unfold countWord
  rw [List.filter_append, List.length_append]
  congr 1
  cases h : rowMatches x none r <;> simp [List.filter, h]

/-- An empty query under a falsy role means the word has no rows at all. -/
theorem filter_nil_of_query_empty (db : List Row) (w : String) (role : Option String)
    (hro : roleTruthy role = false) (hq : queryRows db w role = []) :
    db.filter (rowMatches w none) = [] := by
  have hf := filter_eq_nil_of_query db w role hq
  rwa [rowMatches_falsy w role hro] at hf

/-- The two inserts of the same step preserve the store relation: the new pair
is core-equal with roles `some ""`/`none`, and its word had no rows, so the
diverging pair is word-unique. -/
theorem dbRel_insert (dA dB : List Row) (h : dbRel dA dB) (w ph : String)
    (hqA : queryRows dA w (some "") = []) (hqB : queryRows dB w none = []) :
    dbRel (insertRow dA w ph (some "")) (insertRow dB w ph none) := by
  obtain ⟨l, rfl, rfl, hrel, huniq⟩ := h
  have hmax := maxId_pair l hrel
  have hnext := nextPronOrder_pair l hrel w
  have hemptyA : (l.map Prod.fst).filter (rowMatches w none) = [] :=
    filter_nil_of_query_empty _ w (some "") rfl hqA
  have hc0 : countWord (l.map Prod.fst) w = 0 := by
    unfold countWord
    rw [hemptyA]
    rfl
  set A : Row := ⟨maxId (l.map Prod.fst) + 1, w, nextPronOrder (l.map Prod.fst) w, ph, some ""⟩
    with hA
  set B : Row := ⟨maxId (l.map Prod.snd) + 1, w, nextPronOrder (l.map Prod.snd) w, ph, none⟩
    with hB
  have hAw : A.word = w := by rw [hA]
  have hArole : A.role = some "" := by rw [hA]
  have hBrole : B.role = none := by rw [hB]
  have hmapA : (l ++ [(A, B)]).map Prod.fst = l.map Prod.fst ++ [A] := by
    simp
  refine ⟨l ++ [(A, B)], ?_, ?_, ?_, ?_⟩
  · show insertRow (l.map Prod.fst) w ph (some "") = (l ++ [(A, B)]).map Prod.fst
    rw [hmapA]
    unfold insertRow
    rw [hA]
  · show insertRow (l.map Prod.snd) w ph none = (l ++ [(A, B)]).map Prod.snd
    have hmapB : (l ++ [(A, B)]).map Prod.snd = l.map Prod.snd ++ [B] := by simp
    rw [hmapB]
    unfold insertRow
    rw [hB]
  · intro p hp
    rcases List.mem_append.mp hp with hp | hp
    · exact hrel p hp
    · have hpe := List.mem_singleton.mp hp
      subst hpe
      refine ⟨?_, Or.inr ⟨hArole, hBrole⟩⟩
      show rowCore A = rowCore B
      rw [hA, hB]
      simp only [rowCore]
      rw [hmax, hnext]
  · intro p hp hne
    rcases List.mem_append.mp hp with hpl | hpl
    · have hlt := huniq p hpl hne
      have hword : p.1.word ≠ w := by
        intro hww
        have hmem : p.1 ∈ (l.map Prod.fst).filter (rowMatches w none) := by
          apply List.mem_filter.mpr
          refine ⟨List.mem_map_of_mem Prod.fst hpl, ?_⟩
          rw [rowMatches_none]
          simp [hww]
        rw [hemptyA] at hmem
        cases hmem
      have hnew : rowMatches p.1.word none A = false := by
        rw [rowMatches_none, hAw]
        rw [if_neg (fun hc => hword hc.symm)]
      rw [hmapA, countWord_append_one, hnew]
      simpa using hlt
    · have hpe := List.mem_singleton.mp hpl
      subst hpe
      have hmatch : rowMatches A.word none A = true := by
        rw [rowMatches_none]
        simp
      rw [hmapA, countWord_append_one, hmatch, hAw, hc0]
      simp

/-- The attempted insert preserves the store relation for every write-back and
fault setting. -/
theorem effInsert_rel (cfg : SqlitePhonemizer) (dA dB : List Row) (h : dbRel dA dB)
    (w ph : String) (hqA : queryRows dA w (some "") = []) (hqB : queryRows dB w none = []) :
    dbRel (effInsert cfg dA w ph (some "")) (effInsert cfg dB w ph none) := by
  unfold effInsert
  split
  · split
    · exact h
    · exact dbRel_insert dA dB h w ph hqA hqB
  · exact h

/-- Binding the same word to related role maps preserves the lexicon relation. -/
theorem lexSet_rel (w : String) (a b : RoleMap) (lA lB : String → Option RoleMap)
    (hr : rmRel a b) (h : lexRel lA lB) : lexRel (lexSet w a lA) (lexSet w b lB) := by
  intro w'
  unfold lexSet
  by_cases hw : w' = w
  · exact Or.inr ⟨a, b, by simp [hw], by simp [hw], hr⟩
  · simp only [if_neg hw]
    exact h w'

/-- One loop iteration in the store-miss case, for any write-back setting. -/
theorem resolveLoop_cons_miss (cfg : SqlitePhonemizer)
    (recur : MState → Effects → ROut × MState × Effects) (word : String) (role : Option String)
    (c : Option (String → String)) (rest : List (Option (String → String)))
    (st : MState) (eff : Effects)
    (hlw : lookupOf word c ≠ "")
    (hq : queryRows st.db (lookupOf word c) role = []) :
    resolveLoop cfg recur word role (c :: rest) st eff
      = resolveLoop cfg recur word role rest
          { st with db := effInsert cfg st.db (lookupOf word c) (cfg.analyzer (lookupOf word c)) role }
          ⟨eff.storeQueries + 1, eff.analyzerCalls + 1, eff.recursions⟩ := by
  simp only [resolveLoop, if_neg hlw, if_pos hq]

/-- The transform loop started with role `some ""` and with role `none` on
related states gives equal outcomes, related states and equal effect counters. -/
theorem resolveLoop_bisim (cfg : SqlitePhonemizer) (word : String)
    (rA rB : MState → Effects → ROut × MState × Effects)
    (hrec : ∀ sA sB eff, stRel sA sB → outRel (rA sA eff) (rB sB eff)) :
    ∀ cands sA sB eff, stRel sA sB →
      outRel (resolveLoop cfg rA word (some "") cands sA eff)
             (resolveLoop cfg rB word none cands sB eff) := by
  intro cands
  induction cands with
  | nil => intro sA sB eff h; exact ⟨rfl, h, rfl⟩
  | cons c rest ih =>
    intro sA sB eff h
    by_cases hlw : lookupOf word c = ""
    · rw [show resolveLoop cfg rA word (some "") (c :: rest) sA eff
          = resolveLoop cfg rA word (some "") rest sA eff from by
        simp only [resolveLoop, if_pos hlw]]
      rw [show resolveLoop cfg rB word none (c :: rest) sB eff
          = resolveLoop cfg rB word none rest sB eff from by
        simp only [resolveLoop, if_pos hlw]]
      exact ih sA sB eff h
    · obtain ⟨hiff, hmerge⟩ := query_rel sA.db sB.db h.2 (lookupOf word c)
      by_cases hrows : queryRows sA.db (lookupOf word c) (some "") = []
      · have hrowsB : queryRows sB.db (lookupOf word c) none = [] := hiff.mp hrows
        rw [resolveLoop_cons_miss cfg rA word (some "") c rest sA eff hlw hrows]
        rw [resolveLoop_cons_miss cfg rB word none c rest sB eff hlw hrowsB]
        apply ih
        exact ⟨h.1, effInsert_rel cfg sA.db sB.db h.2 (lookupOf word c)
          (cfg.analyzer (lookupOf word c)) hrows hrowsB⟩
      · have hrowsB : queryRows sB.db (lookupOf word c) none ≠ [] :=
          fun hb => hrows (hiff.mpr hb)
        rw [resolveLoop_cons_merge cfg rA word (some "") c rest sA eff
          (queryRows sA.db (lookupOf word c) (some "")) hlw rfl hrows]
        rw [resolveLoop_cons_merge cfg rB word none c rest sB eff
          (queryRows sB.db (lookupOf word c) none) hlw rfl hrowsB]
        apply hrec
        exact ⟨lexSet_rel _ _ _ _ _ hmerge (lexSet_rel _ _ _ _ _ hmerge h.1), h.2⟩

/-- Bisimulation of `__call__` under the two falsy role arguments. -/
theorem resolve_bisim (cfg : SqlitePhonemizer) :
    ∀ fuel (w0 : String) (dt : Bool) sA sB eff, stRel sA sB →
      outRel (resolve cfg fuel sA w0 (some "") dt eff) (resolve cfg fuel sB w0 none dt eff) := by
  intro fuel
  induction fuel with
  | zero => intro w0 dt sA sB eff h; exact ⟨rfl, h, rfl⟩
  | succ n ih =>
    intro w0 dt sA sB eff h
    rcases h.1 (applyCasing cfg w0) with ⟨hlA, hlB⟩ | ⟨a, b, hlA, hlB, hr⟩
    · rw [resolve_cache_miss cfg n sA w0 (some "") dt eff hlA,
          resolve_cache_miss cfg n sB w0 none dt eff hlB]
      exact resolveLoop_bisim cfg (applyCasing cfg w0) _ _
        (fun sA' sB' eff' h' => ih (applyCasing cfg w0) true sA' sB' eff' h') _ sA sB eff h
    · rw [resolve_cache_hit cfg n sA w0 (some "") dt eff a hlA,
          resolve_cache_hit cfg n sB w0 none dt eff b hlB]
      rw [probe_rel a b hr]
      cases probe b none with
      | some ph => exact ⟨rfl, h, rfl⟩
      | none => exact ⟨rfl, h, rfl⟩

/-- Claim C10: for every configuration, fuel, state, word and transform
setting, `__call__` with the empty-string role returns the same result
(phoneme sequence, not-found, or fuel exhaustion) and the same effect counters
as `__call__` with no role at all: in the cache probe the exact-role lookup for
`""` coincides with the DEFAULT lookup, and in the store path a falsy role
selects the same unfiltered query; only the role column of freshly inserted
rows can differ, which never changes the returned result. -/
theorem c10_thm (cfg : SqlitePhonemizer) (fuel : Nat) (st : MState) (w0 : String)
    (dt : Bool) (eff : Effects) :
    (resolve cfg fuel st w0 (some "") dt eff).1 = (resolve cfg fuel st w0 none dt eff).1 ∧
    (resolve cfg fuel st w0 (some "") dt eff).2.2 = (resolve cfg fuel st w0 none dt eff).2.2 := by
  have h := resolve_bisim cfg fuel w0 dt st st eff (stRel_refl st)
  exact ⟨h.1, h.2.2⟩

end Gruut
